import Mathlib

/-!
# A shallow embedding of khef's subprocess core (`khef.py`)

This development models the `Exec` deferred-invocation class, the
`KeychainRecord` wire format, and the `OpenSSL` cipher adapter of
`khef.py`.  External processes are modelled by an oracle
`OS : RunConfig → ProcResult` giving, for each keyword-argument
configuration handed to `subprocess.run`, the exit code and the raw
bytes the child produced on its standard streams.  Python-level
failures (exceptions) are modelled with `Except`.
-/

set_option linter.unusedVariables false

deriving instance DecidableEq for Except

namespace Khef

/-! ## Python string and bytes helpers -/

/-- The whitespace characters stripped by Python's `str.rstrip()`
(restricted to the ASCII whitespace actually relevant here). -/
def pyIsSpace (c : Char) : Bool :=
  c == ' ' || c == '\t' || c == '\n' || c == '\r' ||
  c == Char.ofNat 11 || c == Char.ofNat 12

/-- Python `str.rstrip()`: drop trailing whitespace characters. -/
def pyRstrip (s : String) : String :=
  ⟨(s.data.reverse.dropWhile pyIsSpace).reverse⟩

/-- Python `bytes.rstrip()`: drop trailing ASCII whitespace bytes. -/
def pyRstripBytes (b : List Nat) : List Nat :=
  (b.reverse.dropWhile (fun n => n == 32 || n == 9 || n == 10 || n == 13 ||
    n == 11 || n == 12)).reverse

/-- The characters Python's `str.splitlines()` treats as line
boundaries: `\n`, `\r`, `\v` (0x0b), `\f` (0x0c), the file/group/record
separators 0x1c-0x1e, NEL (0x85), LINE SEPARATOR (0x2028) and
PARAGRAPH SEPARATOR (0x2029). -/
def isLineBreak (c : Char) : Bool :=
  c == '\n' || c == '\r' || c == Char.ofNat 0x0b || c == Char.ofNat 0x0c ||
  c == Char.ofNat 0x1c || c == Char.ofNat 0x1d || c == Char.ofNat 0x1e ||
  c == Char.ofNat 0x85 || c == Char.ofNat 0x2028 || c == Char.ofNat 0x2029

/-- Accumulating worker for Python `str.splitlines()`: `acc` holds the
(reversed) characters of the current line; `\r\n` counts as a single
terminator, every other line-boundary character as one of its own.  A
trailing terminator produces no further line
(Python: `"a\n".splitlines() == ["a"]`). -/
def splitlinesAux : List Char → List Char → List (List Char)
  | [], acc => [acc.reverse]
  | c :: t, acc =>
      if c = '\r' then
        match t with
        | '\n' :: t1 =>
            acc.reverse ::
              (match t1 with
               | [] => []
               | d :: t2 => splitlinesAux (d :: t2) [])
        | [] => acc.reverse :: []
        | d :: t2 => acc.reverse :: splitlinesAux (d :: t2) []
      else if isLineBreak c then
        acc.reverse ::
          (match t with
           | [] => []
           | d :: t2 => splitlinesAux (d :: t2) [])
      else splitlinesAux t (c :: acc)

/-- Resume after a consumed line terminator: nothing remains after a
trailing terminator. -/
def splitlinesTail : List Char → List (List Char)
  | [] => []
  | c :: t => splitlinesAux (c :: t) []

/-- Python `str.splitlines()`. -/
def pySplitlines (s : String) : List String :=
  if s.data = [] then [] else (splitlinesAux s.data []).map (fun l => ⟨l⟩)

/-- Python `str.split(sep)` for a single-character separator, splitting on
every occurrence (this is what `line.split('=')` does: there is no
`maxsplit` argument in the source). -/
def splitAllAux (sep : Char) : List Char → List Char → List (List Char)
  | [], acc => [acc.reverse]
  | c :: t, acc =>
      if c == sep then acc.reverse :: splitAllAux sep t []
      else splitAllAux sep t (c :: acc)

def pySplitAll (sep : Char) (s : List Char) : List (List Char) :=
  splitAllAux sep s []

/-! ## Strict UTF-8 codec (Python's default `utf-8` codec) -/

/-- Encode one character as UTF-8 bytes. -/
def utf8EncodeChar (c : Char) : List Nat :=
  let n := c.toNat
  if n < 0x80 then [n]
  else if n < 0x800 then [0xC0 + n / 64, 0x80 + n % 64]
  else if n < 0x10000 then
    [0xE0 + n / 4096, 0x80 + (n / 64) % 64, 0x80 + n % 64]
  else
    [0xF0 + n / 262144, 0x80 + (n / 4096) % 64, 0x80 + (n / 64) % 64,
     0x80 + n % 64]

/-- `bytes(s, 'utf-8')`: encode a string as UTF-8 bytes. -/
def utf8Encode (s : String) : List Nat :=
  (s.data.map utf8EncodeChar).flatten

/-- A continuation byte `0x80..0xBF`. -/
def isCont (b : Nat) : Bool := 0x80 ≤ b && b ≤ 0xBF

/-- Strict UTF-8 decoding to a list of code points; rejects overlong
forms, surrogates and out-of-range sequences, as Python's strict
`utf-8` codec does. -/
def utf8DecodeList : List Nat → Option (List Char)
  | [] => some []
  | b0 :: rest =>
    if b0 < 0x80 then
      (utf8DecodeList rest).map (fun cs => Char.ofNat b0 :: cs)
    else if 0xC2 ≤ b0 && b0 ≤ 0xDF then
      match rest with
      | b1 :: rest1 =>
          if isCont b1 then
            (utf8DecodeList rest1).map
              (fun cs => Char.ofNat ((b0 - 0xC0) * 64 + (b1 - 0x80)) :: cs)
          else none
      | _ => none
    else if 0xE0 ≤ b0 && b0 ≤ 0xEF then
      match rest with
      | b1 :: b2 :: rest2 =>
          let okB1 :=
            (b0 == 0xE0 && 0xA0 ≤ b1 && b1 ≤ 0xBF) ||
            (b0 == 0xED && 0x80 ≤ b1 && b1 ≤ 0x9F) ||
            (b0 != 0xE0 && b0 != 0xED && isCont b1)
          if okB1 && isCont b2 then
            (utf8DecodeList rest2).map (fun cs =>
              Char.ofNat ((b0 - 0xE0) * 4096 + (b1 - 0x80) * 64 + (b2 - 0x80))
                :: cs)
          else none
      | _ => none
    else if 0xF0 ≤ b0 && b0 ≤ 0xF4 then
      match rest with
      | b1 :: b2 :: b3 :: rest3 =>
          let okB1 :=
            (b0 == 0xF0 && 0x90 ≤ b1 && b1 ≤ 0xBF) ||
            (b0 == 0xF4 && 0x80 ≤ b1 && b1 ≤ 0x8F) ||
            (b0 != 0xF0 && b0 != 0xF4 && isCont b1)
          if okB1 && isCont b2 && isCont b3 then
            (utf8DecodeList rest3).map (fun cs =>
              Char.ofNat ((b0 - 0xF0) * 262144 + (b1 - 0x80) * 4096 +
                (b2 - 0x80) * 64 + (b3 - 0x80)) :: cs)
          else none
      | _ => none
    else none

/-- `str(b, encoding='utf-8')`: strict UTF-8 decoding of bytes to text;
`none` models a raised `UnicodeDecodeError`. -/
def utf8Decode (b : List Nat) : Option String :=
  (utf8DecodeList b).map (fun cs => ⟨cs⟩)

/-! ## The `Exec` deferred process invocation -/

/-- The `input` field of an `Exec`: `typing.Union[str, bytes]`. -/
inductive Payload
  | text (s : String)
  | binary (b : List Nat)
deriving DecidableEq, Repr

/-- Python truthiness of an input payload: the empty string and the
empty byte string are falsy. -/
def Payload.isTruthy : Payload → Bool
  | .text s => s != ""
  | .binary b => !b.isEmpty

/-- A value of `CompletedProcess.stdout` / `.stderr`: `str` when the
`text` keyword was set, `bytes` otherwise. -/
inductive Out
  | bytes (b : List Nat)
  | text (s : String)
deriving DecidableEq, Repr

/-- Python `.rstrip()` on either framing of an output value. -/
def Out.rstrip : Out → Out
  | .bytes b => .bytes (pyRstripBytes b)
  | .text s => .text (pyRstrip s)

/-- The Python exceptions the modelled code can raise. -/
inductive PyError
  /-- `subprocess.CalledProcessError` (aliased `Exec.Failed` in the
  source): carries the exit code and the captured streams. -/
  | processFailed (returncode : Int) (stdout stderr : Option Out)
  /-- `Exec.Expired`: a consuming operation on a consumed invocation. -/
  | expired
  /-- `str(stdout, encoding='utf-8')` applied to a `str` value. -/
  | typeError
  /-- strict UTF-8 decoding failed. -/
  | unicodeDecodeError
deriving DecidableEq, Repr

/-- The keyword arguments `Exec._run` passes to `subprocess.run`. -/
structure RunConfig where
  argv : List String
  captureOutput : Bool
  check : Bool
  input : Option Payload
  text : Bool
  pass_fds : Option (List Nat)
deriving DecidableEq, Repr

/-- What the operating system reports for one child process: its exit
code and the raw bytes it produced on stdout/stderr (empty when the
stream was not captured). -/
structure ProcResult where
  returncode : Int
  stdout : List Nat
  stderr : List Nat
deriving DecidableEq, Repr

/-- The environment: a deterministic oracle answering each
`subprocess.run` call. -/
abbrev OS := RunConfig → ProcResult

/-- The `Exec` object: an argument vector, an optional stdin payload,
optional extra file descriptors, and the pending/consumed flag. -/
structure Exec where
  argv : List String
  input : Option Payload := none
  pass_fds : Option (List Nat) := none
  pending : Bool := true
deriving DecidableEq, Repr

namespace Exec

/-- The keyword-argument dictionary built by `Exec._run`:
`check` is true unless `capture_status` was passed; a truthy `input`
is forwarded (with `text=True` when it is a `str`); a truthy
`pass_fds` tuple is forwarded. -/
def runKwargs (e : Exec) (captureOutput captureStatus : Bool) : RunConfig :=
  { argv := e.argv
    captureOutput := captureOutput
    check := !captureStatus
    input := match e.input with
      | some p => if p.isTruthy then some p else none
      | none => none
    text := match e.input with
      | some (.text s) => s != ""
      | _ => false
    pass_fds := match e.pass_fds with
      | some fds => if fds.isEmpty then none else some fds
      | none => none }

/-- `subprocess.run` with output capture: consult the oracle, decode
both captured streams when in text mode (a failure is Python's
`UnicodeDecodeError`), and return the exit code with both streams. -/
def runCaptured (os : OS) (cfg : RunConfig) : Except PyError (Int × Out × Out) :=
  let r := os cfg
  if cfg.text then
    match utf8Decode r.stdout, utf8Decode r.stderr with
    | some so, some se => .ok (r.returncode, .text so, .text se)
    | _, _ => .error .unicodeDecodeError
  else
    .ok (r.returncode, .bytes r.stdout, .bytes r.stderr)

/-- The `Exec.stdout` property: on a consumed invocation raise
`Expired`; otherwise run with `capture_output=True` (and `check`), mark
the invocation consumed (the `finally` block), raise `ProcessFailed`
on a non-zero exit, and return the captured stdout.  The third
component lists the `subprocess.run` calls performed. -/
def stdout (os : OS) (e : Exec) : Except PyError Out × Exec × List RunConfig :=
  if e.pending then
    let cfg := e.runKwargs true false
    let e' := { e with pending := false }
    match runCaptured os cfg with
    | .error err => (.error err, e', [cfg])
    | .ok (rc, so, se) =>
        if rc ≠ 0 then (.error (.processFailed rc (some so) (some se)), e', [cfg])
        else (.ok so, e', [cfg])
  else (.error .expired, e, [])

/-- The `Exec.returncode` property: on a consumed invocation raise
`Expired`; otherwise run with `capture_status=True` (so `check=False`,
no capture), mark consumed, and return the numeric exit code. -/
def returncode (os : OS) (e : Exec) : Except PyError Int × Exec × List RunConfig :=
  if e.pending then
    let cfg := e.runKwargs false true
    let r := os cfg
    (.ok r.returncode, { e with pending := false }, [cfg])
  else (.error .expired, e, [])

/-- `Exec.__str__`: take `self.stdout` and apply
`str(stdout, encoding='utf-8')` — which decodes a `bytes` value and
raises `TypeError` on a `str` value. -/
def toStr (os : OS) (e : Exec) : Except PyError String × Exec × List RunConfig :=
  match e.stdout os with
  | (.ok (.bytes b), e', ls) =>
      match utf8Decode b with
      | some s => (.ok s, e', ls)
      | none => (.error .unicodeDecodeError, e', ls)
  | (.ok (.text _), e', ls) => (.error .typeError, e', ls)
  | (.error err, e', ls) => (.error err, e', ls)

/-- `Exec.__iter__`: `str(self).splitlines()`. -/
def iterLines (os : OS) (e : Exec) :
    Except PyError (List String) × Exec × List RunConfig :=
  match e.toStr os with
  | (.ok s, e', ls) => (.ok (pySplitlines s), e', ls)
  | (.error err, e', ls) => (.error err, e', ls)

/-- `Exec.__del__`: a still-pending invocation is run once, with no
output capture (`self._run()`); the result is the list of
`subprocess.run` calls performed at discard time. -/
def del (e : Exec) : List RunConfig :=
  if e.pending then [e.runKwargs false false] else []

end Exec

/-! ### Operation sequences over one invocation -/

/-- The consuming operations of the spec: `exit_status`,
`captured_output`, text coercion and iteration. -/
inductive ConsumeOp
  | exitStatus
  | capturedOutput
  | strCoerce
  | iterate
deriving DecidableEq, Repr

/-- Apply one consuming operation, keeping the successor state and the
`subprocess.run` calls it performed. -/
def applyOp (os : OS) (e : Exec) : ConsumeOp → Exec × List RunConfig
  | .exitStatus => let r := e.returncode os; (r.2.1, r.2.2)
  | .capturedOutput => let r := e.stdout os; (r.2.1, r.2.2)
  | .strCoerce => let r := e.toStr os; (r.2.1, r.2.2)
  | .iterate => let r := e.iterLines os; (r.2.1, r.2.2)

/-- Run a sequence of consuming operations, collecting every
`subprocess.run` call performed along the way. -/
def runConsumeSeq (os : OS) : Exec → List ConsumeOp → Exec × List RunConfig
  | e, [] => (e, [])
  | e, op :: ops =>
      let (e', ls) := applyOp os e op
      let (e'', ls') := runConsumeSeq os e' ops
      (e'', ls ++ ls')

/-- A whole object lifetime: a sequence of consuming operations
followed by the object being discarded (`__del__`). -/
def runLifetime (os : OS) (e : Exec) (ops : List ConsumeOp) : List RunConfig :=
  let (e', ls) := runConsumeSeq os e ops
  ls ++ e'.del

/-! ## Keychain records (`git-credential` wire format) -/

/-- A full keychain record: host, username and password
(`KeychainRecord`, inheriting `host`/`username` from
`AbstractKeychainRecord`). -/
structure KeychainRecord where
  host : String
  username : String
  password : String
deriving DecidableEq, Repr

namespace KeychainRecord

/-- `AbstractKeychainRecord.__str__` on a full record:
`"protocol=https\n"` followed by one `key=value` line per field in
declaration order. -/
def toWire (rec : KeychainRecord) : String :=
  "protocol=https\n" ++ "host=" ++ rec.host ++ "\n" ++
  "username=" ++ rec.username ++ "\n" ++ "password=" ++ rec.password

/-- One step of the dict comprehension in `KeychainRecord.parse`:
`line.split('=')` (on every `=`), keeping elements `0` and `1`;
`none` models the `IndexError` on a line with no `=`. -/
def parseLine (l : List Char) : Option (List Char × List Char) :=
  match pySplitAll '=' l with
  | p0 :: p1 :: _ => some (p0, p1)
  | _ => none

/-- Split every line, stopping at the first failing one. -/
def parseLines : List (List Char) → Option (List (List Char × List Char))
  | [] => some []
  | l :: ls => do
      let kv ← parseLine l
      let kvs ← parseLines ls
      pure (kv :: kvs)

/-- Python dict semantics for the comprehension: the last binding of a
key wins; `none` models the `KeyError` of a missing key. -/
def dictLookup (kvs : List (List Char × List Char)) (k : List Char) :
    Option (List Char) :=
  ((kvs.filter (fun p => p.1 == k)).getLast?).map (fun p => p.2)

/-- `KeychainRecord.parse`: split the raw text into lines, split each
line on `=`, build the dictionary and read the three fields. -/
def parse (raw : String) : Option KeychainRecord := do
  let lines := (pySplitlines raw).map String.data
  let kvs ← parseLines lines
  let h ← dictLookup kvs "host".data
  let u ← dictLookup kvs "username".data
  let p ← dictLookup kvs "password".data
  pure ⟨⟨h⟩, ⟨u⟩, ⟨p⟩⟩

end KeychainRecord

/-! ## The OpenSSL cipher adapter -/

namespace OpenSSL

/-- argv of the `openssl enc` encryption invocation: only fixed tokens
plus the `fd:<N>` reference to the secret pipe's read end `r`. -/
def encArgv (r : Nat) : List String :=
  ["/usr/bin/openssl", "enc", "-A", "-chacha", "-base64", "-pass",
   "fd:" ++ toString r]

/-- argv of the decryption invocation: the same shape with `-d`. -/
def decArgv (r : Nat) : List String :=
  ["/usr/bin/openssl", "enc", "-d", "-A", "-chacha", "-base64", "-pass",
   "fd:" ++ toString r]

/-- The `Exec` object built by `symmetric_encrypt`.  The password is an
argument of the source function but reaches the child only through the
pipe write `os.write(w, bytes(password, 'utf-8'))`; it does not occur
in the constructed argv. -/
def encInvocation (plaintext password : String) (r : Nat) : Exec :=
  { argv := encArgv r, input := some (.text plaintext),
    pass_fds := some [r], pending := true }

/-- The `Exec` object built by `symmetric_decrypt`. -/
def decInvocation (ciphertext password : String) (r : Nat) : Exec :=
  { argv := decArgv r, input := some (.text ciphertext),
    pass_fds := some [r], pending := true }

/-- `OpenSSL.symmetric_encrypt`: run the encryption invocation and
return its captured stdout with trailing whitespace stripped
(`ciphertext.stdout.rstrip()`). -/
def symmetric_encrypt (os : OS) (r : Nat) (plaintext password : String) :
    Except PyError Out :=
  ((encInvocation plaintext password r).stdout os).1.map Out.rstrip

/-- `OpenSSL.symmetric_decrypt`: run the decryption invocation and
return its captured stdout with trailing whitespace stripped. -/
def symmetric_decrypt (os : OS) (r : Nat) (ciphertext password : String) :
    Except PyError Out :=
  ((decInvocation ciphertext password r).stdout os).1.map Out.rstrip

end OpenSSL

/-! ## Helper lemmas about the `Exec` state machine -/

namespace Exec

/-- A consumed invocation: `stdout` raises `Expired` and runs nothing. -/
theorem stdout_consumed (os : OS) (e : Exec) (h : e.pending = false) :
    e.stdout os = (.error .expired, e, []) := by
  unfold stdout; simp [h]

/-- A consumed invocation: `returncode` raises `Expired` and runs nothing. -/
theorem returncode_consumed (os : OS) (e : Exec) (h : e.pending = false) :
    e.returncode os = (.error .expired, e, []) := by
  unfold returncode; simp [h]

/-- A consumed invocation: `__str__` raises `Expired` and runs nothing. -/
theorem toStr_consumed (os : OS) (e : Exec) (h : e.pending = false) :
    e.toStr os = (.error .expired, e, []) := by
  unfold toStr; rw [stdout_consumed os e h]

/-- A consumed invocation: `__iter__` raises `Expired` and runs nothing. -/
theorem iterLines_consumed (os : OS) (e : Exec) (h : e.pending = false) :
    e.iterLines os = (.error .expired, e, []) := by
  unfold iterLines; rw [toStr_consumed os e h]

/-- `stdout` always leaves the invocation consumed, and runs the child
once exactly when it was pending. -/
theorem stdout_state (os : OS) (e : Exec) :
    (e.stdout os).2 =
      if e.pending then ({ e with pending := false }, [e.runKwargs true false])
      else (e, []) := by
  unfold stdout
  cases hp : e.pending
  · simp
  · simp only [if_true]
    cases hrc : runCaptured os (e.runKwargs true false) with
    | error err => simp
    | ok v =>
        obtain ⟨rc, so, se⟩ := v
        by_cases h0 : rc = 0 <;> simp [h0]

/-- `returncode` always leaves the invocation consumed, and runs the
child once exactly when it was pending. -/
theorem returncode_state (os : OS) (e : Exec) :
    (e.returncode os).2 =
      if e.pending then ({ e with pending := false }, [e.runKwargs false true])
      else (e, []) := by
  unfold returncode
  cases hp : e.pending <;> simp

/-- `__str__` has the same state effect as the `stdout` call it makes. -/
theorem toStr_state (os : OS) (e : Exec) :
    (e.toStr os).2 = (e.stdout os).2 := by
  unfold toStr
  rcases hs : e.stdout os with ⟨res, e1, ls⟩
  cases res with
  | error err => simp
  | ok o =>
      cases o with
      | bytes b => cases hd : utf8Decode b <;> simp [hd]
      | text s => simp

/-- `__iter__` has the same state effect as the `__str__` call it makes. -/
theorem iterLines_state (os : OS) (e : Exec) :
    (e.iterLines os).2 = (e.toStr os).2 := by
  unfold iterLines
  rcases hs : e.toStr os with ⟨res, e1, ls⟩
  cases res <;> simp

end Exec

/-- The `subprocess.run` keyword arguments used by each consuming
operation: `exit_status` passes `capture_status`, the others capture. -/
def opKwargs (e : Exec) : ConsumeOp → RunConfig
  | .exitStatus => e.runKwargs false true
  | _ => e.runKwargs true false

/-- Every consuming operation leaves the invocation consumed; on a
pending invocation it performs exactly one child launch, on a consumed
one it performs none. -/
theorem applyOp_state (os : OS) (e : Exec) (op : ConsumeOp) :
    applyOp os e op =
      if e.pending then ({ e with pending := false }, [opKwargs e op])
      else (e, []) := by
  cases op
  case exitStatus =>
    show (e.returncode os).2 = _
    rw [Exec.returncode_state]; rfl
  case capturedOutput =>
    show (e.stdout os).2 = _
    rw [Exec.stdout_state]; rfl
  case strCoerce =>
    show (e.toStr os).2 = _
    rw [Exec.toStr_state, Exec.stdout_state]; rfl
  case iterate =>
    show (e.iterLines os).2 = _
    rw [Exec.iterLines_state, Exec.toStr_state, Exec.stdout_state]; rfl

/-- A consuming operation on a consumed invocation is a no-op (raising
`Expired`): the state is unchanged and no child is launched. -/
theorem applyOp_consumed (os : OS) (e : Exec) (op : ConsumeOp)
    (h : e.pending = false) : applyOp os e op = (e, []) := by
  rw [applyOp_state, h]; rfl

/-- A sequence of consuming operations on a consumed invocation does
nothing. -/
theorem runConsumeSeq_consumed (os : OS) (e : Exec) (ops : List ConsumeOp)
    (h : e.pending = false) : runConsumeSeq os e ops = (e, []) := by
  induction ops with
  | nil => rfl
  | cons op ops ih => simp [runConsumeSeq, applyOp_consumed os e op h, ih]

/-- Over a whole lifetime (any consuming operations, then discard), the
child is launched exactly once from a pending invocation and never from
a consumed one. -/
theorem runLifetime_length (os : OS) (e : Exec) (ops : List ConsumeOp) :
    (runLifetime os e ops).length = if e.pending then 1 else 0 := by
  cases hp : e.pending
  · simp [runLifetime, runConsumeSeq_consumed os e ops hp, Exec.del, hp]
  · cases ops with
    | nil => simp [runLifetime, runConsumeSeq, Exec.del, hp]
    | cons op ops =>
        have hs : applyOp os e op = ({ e with pending := false }, [opKwargs e op]) := by
          rw [applyOp_state, hp]; rfl
        simp [runLifetime, runConsumeSeq, hs,
          runConsumeSeq_consumed os { e with pending := false } ops rfl, Exec.del]

/-! ## Helper lemmas about the wire-format string functions -/

/-- `String.mk` undoes `String.data`. -/
theorem string_mk_data (s : String) : (⟨s.data⟩ : String) = s := rfl

/-- Splitting a separator-free list yields a single piece. -/
theorem splitAllAux_no_sep (sep : Char) (l : List Char) :
    ∀ acc, (∀ c ∈ l, c ≠ sep) → splitAllAux sep l acc = [acc.reverse ++ l] := by
  induction l with
  | nil => intro acc h; simp [splitAllAux]
  | cons c t ih =>
      intro acc h
      have hc : ¬(c == sep) := by simp [h c (by simp)]
      rw [splitAllAux]
      simp only [hc, if_false, Bool.false_eq_true]
      rw [ih (c :: acc) (fun d hd => h d (by simp [hd]))]
      simp

/-- Splitting at the first separator occurrence. -/
theorem splitAllAux_sep (sep : Char) (l1 l2 : List Char) :
    ∀ acc, (∀ c ∈ l1, c ≠ sep) →
      splitAllAux sep (l1 ++ sep :: l2) acc =
        (acc.reverse ++ l1) :: splitAllAux sep l2 [] := by
  induction l1 with
  | nil => intro acc h; simp [splitAllAux]
  | cons c t ih =>
      intro acc h
      have hc : ¬(c == sep) := by simp [h c (by simp)]
      rw [List.cons_append, splitAllAux]
      simp only [hc, if_false, Bool.false_eq_true]
      rw [ih (c :: acc) (fun d hd => h d (by simp [hd]))]
      simp

/-- A list free of line-boundary characters is one whole line. -/
theorem splitlinesAux_no_term (l : List Char) :
    ∀ acc, (∀ c ∈ l, isLineBreak c = false) →
      splitlinesAux l acc = [acc.reverse ++ l] := by
  induction l with
  | nil => intro acc h; simp [splitlinesAux]
  | cons c t ih =>
      intro acc h
      have h1 : isLineBreak c = false := h c (by simp)
      have h2 : ¬(c = '\r') := by
        intro he; rw [he] at h1; exact absurd h1 (by decide)
      rw [splitlinesAux.eq_def]
      simp only [h1, h2, if_false, Bool.false_eq_true]
      rw [ih (c :: acc) (fun d hd => h d (by simp [hd]))]
      simp

/-- Consuming one `\n`-terminated, boundary-free line. -/
theorem splitlinesAux_line (l rest : List Char) :
    ∀ acc, (∀ c ∈ l, isLineBreak c = false) →
      splitlinesAux (l ++ '\n' :: rest) acc =
        (acc.reverse ++ l) :: splitlinesTail rest := by
  induction l with
  | nil =>
      intro acc h
      rw [List.nil_append, splitlinesAux.eq_def]
      cases rest <;> simp [splitlinesTail, isLineBreak]
  | cons c t ih =>
      intro acc h
      have h1 : isLineBreak c = false := h c (by simp)
      have h2 : ¬(c = '\r') := by
        intro he; rw [he] at h1; exact absurd h1 (by decide)
      rw [List.cons_append, splitlinesAux.eq_def]
      simp only [h1, h2, if_false, Bool.false_eq_true]
      rw [ih (c :: acc) (fun d hd => h d (by simp [hd]))]
      simp

/-- The same, phrased for the resume-after-terminator worker. -/
theorem splitlinesTail_line (l rest : List Char)
    (h : ∀ c ∈ l, isLineBreak c = false) :
    splitlinesTail (l ++ '\n' :: rest) = l :: splitlinesTail rest := by
  cases l with
  | nil =>
      have := splitlinesAux_line [] rest [] (by simp)
      simpa [splitlinesTail] using this
  | cons c t =>
      have := splitlinesAux_line (c :: t) rest [] h
      simpa [splitlinesTail] using this

/-- A final, boundary-free, nonempty line. -/
theorem splitlinesTail_last (l : List Char)
    (h : ∀ c ∈ l, isLineBreak c = false) (hne : l ≠ []) :
    splitlinesTail l = [l] := by
  cases l with
  | nil => exact absurd rfl hne
  | cons c t =>
      have := splitlinesAux_no_term (c :: t) [] h
      simpa [splitlinesTail] using this

/-- The serialized wire block, viewed as a character list. -/
theorem toWire_data (rec : KeychainRecord) :
    (rec.toWire).data =
      "protocol=https".data ++ '\n' ::
        (("host=".data ++ rec.host.data) ++ '\n' ::
          (("username=".data ++ rec.username.data) ++ '\n' ::
            ("password=".data ++ rec.password.data))) := by
  have hsplit : ("protocol=https\n" : String).data =
      "protocol=https".data ++ ['\n'] := rfl
  have hnl : ("\n" : String).data = ['\n'] := rfl
  simp [KeychainRecord.toWire, String.data_append, hsplit, hnl]

/-- Line condition assembled from a field's character condition. -/
theorem line_no_term (pre : List Char) (f : String)
    (hpre : ∀ c ∈ pre, isLineBreak c = false)
    (hf : ∀ c ∈ f.data, isLineBreak c = false) :
    ∀ c ∈ pre ++ f.data, isLineBreak c = false := by
  intro c hc
  rcases List.mem_append.mp hc with h | h
  · exact hpre c h
  · exact hf c h

/-- Splitting the serialized block into its four lines. -/
theorem pySplitlines_toWire (rec : KeychainRecord)
    (hh : ∀ c ∈ rec.host.data, isLineBreak c = false)
    (hu : ∀ c ∈ rec.username.data, isLineBreak c = false)
    (hp : ∀ c ∈ rec.password.data, isLineBreak c = false) :
    (pySplitlines rec.toWire).map String.data =
      ["protocol=https".data,
       "host=".data ++ rec.host.data,
       "username=".data ++ rec.username.data,
       "password=".data ++ rec.password.data] := by
  unfold pySplitlines
  rw [toWire_data]
  rw [if_neg (by simp)]
  rw [splitlinesAux_line "protocol=https".data _ [] (by decide)]
  rw [splitlinesTail_line _ _ (line_no_term "host=".data rec.host (by decide) hh)]
  rw [splitlinesTail_line _ _
    (line_no_term "username=".data rec.username (by decide) hu)]
  rw [splitlinesTail_last _
    (line_no_term "password=".data rec.password (by decide) hp) (by simp)]
  simp [string_mk_data]

/-- Parsing one `key=value` line with a separator-free key and value. -/
theorem parseLine_key_value (k : List Char) (v : String)
    (hk : ∀ c ∈ k, c ≠ '=') (hv : ∀ c ∈ v.data, c ≠ '=') :
    KeychainRecord.parseLine (k ++ '=' :: v.data) = some (k, v.data) := by
  unfold KeychainRecord.parseLine pySplitAll
  rw [splitAllAux_sep '=' k v.data [] hk]
  rw [splitAllAux_no_sep '=' v.data [] hv]
  rfl

/-! ## Concrete fixtures for witnesses and counterexamples -/

/-- An environment whose children exit 0 with empty output. -/
def osOk : OS := fun _ => ⟨0, [], []⟩

/-- An environment whose children exit 1 with empty output. -/
def osFail : OS := fun _ => ⟨1, [], []⟩

/-- An environment whose children exit 0 printing the byte `0x61`. -/
def osByteA : OS := fun _ => ⟨0, [97], []⟩

/-- A fresh, pending invocation. -/
def eFresh : Exec := { argv := ["/usr/bin/true"] }

/-- The same invocation, already consumed. -/
def eSpent : Exec := { argv := ["/usr/bin/true"], pending := false }

/-- A pending invocation with a (nonempty) textual input payload. -/
def eTextIn : Exec := { argv := ["/bin/cat"], input := some (.text "x") }

/-- A pending invocation whose input payload is the empty string. -/
def eEmptyIn : Exec := { argv := ["/bin/cat"], input := some (.text "") }

/-! ## The claims -/

/-- C4: for every Invocation and every sequence of operations applied
to it (consuming operations followed by discard), the child process is
launched at most once; every consuming operation irreversibly moves the
flag to consumed, and no operation launches the child when the flag is
already consumed. -/
theorem launchedAtMostOnce (os : OS) (e : Exec) (ops : List ConsumeOp) :
    (runLifetime os e ops).length ≤ 1 ∧
    (∀ op, ((applyOp os e op).1).pending = false) ∧
    (e.pending = false → (∀ op, applyOp os e op = (e, [])) ∧ e.del = []) := by
  refine ⟨?_, ?_, ?_⟩
  · rw [runLifetime_length]
    cases e.pending <;> simp
  · intro op
    rw [applyOp_state]
    cases hp : e.pending <;> simp [hp]
  · intro h
    exact ⟨fun op => applyOp_consumed os e op h, by simp [Exec.del, h]⟩

/-- Witness for C4 at a concrete environment, invocation and sequence. -/
theorem launchedAtMostOnce_witness :
    (runLifetime osOk eFresh [.capturedOutput, .iterate]).length ≤ 1 ∧
    applyOp osOk eSpent .exitStatus = (eSpent, []) :=
  ⟨(launchedAtMostOnce osOk eFresh [.capturedOutput, .iterate]).1,
   ((launchedAtMostOnce osOk eSpent []).2.2 rfl).1 .exitStatus⟩

/-- C5: every consuming operation (`exit_status`, `captured_output`,
text coercion, iteration) on an already-consumed Invocation raises the
`Expired` condition. -/
theorem consumedOpsRaiseExpired (os : OS) (e : Exec) (h : e.pending = false) :
    (e.returncode os).1 = .error .expired ∧
    (e.stdout os).1 = .error .expired ∧
    (e.toStr os).1 = .error .expired ∧
    (e.iterLines os).1 = .error .expired := by
  rw [Exec.returncode_consumed os e h, Exec.stdout_consumed os e h,
    Exec.toStr_consumed os e h, Exec.iterLines_consumed os e h]
  exact ⟨rfl, rfl, rfl, rfl⟩

/-- Witness for C5 on a concrete consumed invocation. -/
theorem consumedOpsRaiseExpired_witness :
    (eSpent.returncode osOk).1 = .error .expired ∧
    (eSpent.stdout osOk).1 = .error .expired ∧
    (eSpent.toStr osOk).1 = .error .expired ∧
    (eSpent.iterLines osOk).1 = .error .expired :=
  consumedOpsRaiseExpired osOk eSpent rfl

/-- C6: on a pending invocation, `exit_status` returns the numeric exit
code without raising, while `captured_output` raises `ProcessFailed`
carrying the exit code and both captured streams exactly when the exit
code is non-zero (and returns the captured stdout otherwise). -/
theorem exitStatusVsCapturedOutput (os : OS) (e : Exec) (rc : Int) (so se : Out)
    (hp : e.pending = true)
    (hcap : Exec.runCaptured os (e.runKwargs true false) = .ok (rc, so, se)) :
    (e.returncode os).1 = .ok (os (e.runKwargs false true)).returncode ∧
    ((e.stdout os).1 = .error (.processFailed rc (some so) (some se)) ↔ rc ≠ 0) ∧
    (rc = 0 → (e.stdout os).1 = .ok so) := by
  have hstd : (e.stdout os).1 =
      if rc ≠ 0 then .error (.processFailed rc (some so) (some se)) else .ok so := by
    unfold Exec.stdout
    simp [hp, hcap]
    by_cases h0 : rc = 0 <;> simp [h0]
  refine ⟨?_, ?_, ?_⟩
  · unfold Exec.returncode
    simp [hp]
  · rw [hstd]
    by_cases h0 : rc = 0 <;> simp [h0]
  · intro h0
    rw [hstd]
    simp [h0]

/-- Witness for C6: a child that exits 1. -/
theorem exitStatusVsCapturedOutput_witness :
    (eFresh.returncode osFail).1 = .ok (osFail (eFresh.runKwargs false true)).returncode ∧
    ((eFresh.stdout osFail).1 =
      .error (.processFailed 1 (some (.bytes [])) (some (.bytes []))) ↔ (1 : Int) ≠ 0) ∧
    ((1 : Int) = 0 → (eFresh.stdout osFail).1 = .ok (.bytes [])) :=
  exitStatusVsCapturedOutput osFail eFresh 1 (.bytes []) (.bytes []) rfl rfl

/-- C7: discarding a still-pending Invocation runs the child exactly
once, with the same argv, without capturing its output. -/
theorem discardPendingRunsOnce (e : Exec) (h : e.pending = true) :
    e.del = [e.runKwargs false false] ∧
    (e.runKwargs false false).captureOutput = false ∧
    (e.runKwargs false false).argv = e.argv := by
  exact ⟨by simp [Exec.del, h], rfl, rfl⟩

/-- Witness for C7 on a concrete pending invocation. -/
theorem discardPendingRunsOnce_witness :
    eFresh.del = [eFresh.runKwargs false false] ∧
    (eFresh.runKwargs false false).captureOutput = false ∧
    (eFresh.runKwargs false false).argv = eFresh.argv :=
  discardPendingRunsOnce eFresh rfl

/-- C8: an empty-string input payload is treated exactly as no input:
the keyword arguments built for the child coincide with those of the
same invocation without input, and in particular stdin is not
redirected. -/
theorem emptyInputIsNoInput (e : Exec) (cap chk : Bool)
    (h : e.input = some (.text "")) :
    e.runKwargs cap chk = ({ e with input := none } : Exec).runKwargs cap chk ∧
    (e.runKwargs cap chk).input = none := by
  unfold Exec.runKwargs
  rw [h]
  simp [Payload.isTruthy]

/-- Witness for C8 on a concrete invocation with empty-string input. -/
theorem emptyInputIsNoInput_witness :
    eEmptyIn.runKwargs true false =
      ({ eEmptyIn with input := none } : Exec).runKwargs true false ∧
    (eEmptyIn.runKwargs true false).input = none :=
  emptyInputIsNoInput eEmptyIn true false rfl

/-- C10: when a consuming operation raises (e.g. `captured_output`
raising `ProcessFailed`), the invocation is nevertheless marked
consumed: further consuming calls raise `Expired` and a later discard
launches nothing. -/
theorem failedConsumeStillConsumes (os : OS) (e : Exec) (err : PyError)
    (hp : e.pending = true) (hfail : (e.stdout os).1 = .error err) :
    ((e.stdout os).2.1).pending = false ∧
    (((e.stdout os).2.1).stdout os).1 = .error .expired ∧
    (((e.stdout os).2.1).returncode os).1 = .error .expired ∧
    ((e.stdout os).2.1).del = [] := by
  have h2 : ((e.stdout os).2.1).pending = false := by
    rw [Exec.stdout_state]
    simp [hp]
  refine ⟨h2, ?_, ?_, ?_⟩
  · rw [Exec.stdout_consumed os _ h2]
  · rw [Exec.returncode_consumed os _ h2]
  · simp [Exec.del, h2]

/-- Witness for C10: `captured_output` raising `ProcessFailed` on a
child that exits 1 still consumes the invocation. -/
theorem failedConsumeStillConsumes_witness :
    ((eFresh.stdout osFail).2.1).pending = false ∧
    (((eFresh.stdout osFail).2.1).stdout osFail).1 = .error .expired ∧
    (((eFresh.stdout osFail).2.1).returncode osFail).1 = .error .expired ∧
    ((eFresh.stdout osFail).2.1).del = [] :=
  failedConsumeStillConsumes osFail eFresh
    (.processFailed 1 (some (.bytes [])) (some (.bytes []))) rfl rfl

/-- C3 counterexample: `parse` applies `line.split('=')`, which splits
on every `=` and keeps only the first two components, so a password
containing `=` does not survive the round trip (it is silently
truncated at its first `=`), contradicting both the for-every-record
round trip and the split-on-the-first-`=` reading. -/
theorem wireFormatRoundtripCounterexample :
    KeychainRecord.parse (KeychainRecord.toWire ⟨"h", "u", "a=b"⟩) =
      some ⟨"h", "u", "a"⟩ ∧
    (⟨"h", "u", "a"⟩ : KeychainRecord) ≠ ⟨"h", "u", "a=b"⟩ := by
  refine ⟨by decide, by decide⟩

/-- C3 (amended): serializing a full credential record and parsing it
back yields the identical record provided no field contains a `=` or
any character Python's `splitlines` treats as a line boundary (`\n`,
`\r`, `\v`, `\f`, 0x1c-0x1e, 0x85, U+2028, U+2029); parsing splits
each line on every `=` and keeps the first two components, which
coincides with splitting on the first `=` exactly when values are
`=`-free. -/
theorem wireFormatRoundtrip (rec : KeychainRecord)
    (hh : ∀ c ∈ rec.host.data, isLineBreak c = false ∧ c ≠ '=')
    (hu : ∀ c ∈ rec.username.data, isLineBreak c = false ∧ c ≠ '=')
    (hp : ∀ c ∈ rec.password.data, isLineBreak c = false ∧ c ≠ '=') :
    KeychainRecord.parse rec.toWire = some rec := by
  have hh2 : ∀ c ∈ rec.host.data, isLineBreak c = false :=
    fun c hc => (hh c hc).1
  have hu2 : ∀ c ∈ rec.username.data, isLineBreak c = false :=
    fun c hc => (hu c hc).1
  have hp2 : ∀ c ∈ rec.password.data, isLineBreak c = false :=
    fun c hc => (hp c hc).1
  have e1 : KeychainRecord.parseLine "protocol=https".data =
      some ("protocol".data, "https".data) := by decide
  have e2 : KeychainRecord.parseLine ("host=".data ++ rec.host.data) =
      some ("host".data, rec.host.data) := by
    rw [show "host=".data ++ rec.host.data =
      "host".data ++ '=' :: rec.host.data from rfl]
    exact parseLine_key_value "host".data rec.host (by decide)
      (fun c hc => (hh c hc).2)
  have e3 : KeychainRecord.parseLine ("username=".data ++ rec.username.data) =
      some ("username".data, rec.username.data) := by
    rw [show "username=".data ++ rec.username.data =
      "username".data ++ '=' :: rec.username.data from rfl]
    exact parseLine_key_value "username".data rec.username (by decide)
      (fun c hc => (hu c hc).2)
  have e4 : KeychainRecord.parseLine ("password=".data ++ rec.password.data) =
      some ("password".data, rec.password.data) := by
    rw [show "password=".data ++ rec.password.data =
      "password".data ++ '=' :: rec.password.data from rfl]
    exact parseLine_key_value "password".data rec.password (by decide)
      (fun c hc => (hp c hc).2)
  unfold KeychainRecord.parse
  rw [pySplitlines_toWire rec hh2 hu2 hp2]
  simp only [KeychainRecord.parseLines, e1, e2, e3, e4, Option.bind_eq_bind,
    Option.some_bind]
  simp [KeychainRecord.dictLookup, List.filter, List.getLast?, string_mk_data]

/-- Witness for the amended C3 on a concrete full record. -/
theorem wireFormatRoundtrip_witness :
    KeychainRecord.parse (KeychainRecord.toWire
      ⟨"example.com", "will.dearborn", "nineteen"⟩) =
      some ⟨"example.com", "will.dearborn", "nineteen"⟩ :=
  wireFormatRoundtrip ⟨"example.com", "will.dearborn", "nineteen"⟩
    (by decide) (by decide) (by decide)

/-- C9 counterexample: with a (nonempty) textual input payload the
captured output is already text, and `str(stdout, encoding='utf-8')`
raises `TypeError` instead of returning the decoded output — here the
child prints the single byte `0x61`, `captured_output` yields the text
`"a"`, UTF-8 decoding of the raw output yields `"a"`, yet text coercion
raises instead of returning `"a"`. -/
theorem strCoercionTypeError :
    (eTextIn.toStr osByteA).1 = .error .typeError ∧
    (eTextIn.stdout osByteA).1 = .ok (.text "a") ∧
    utf8Decode (osByteA (eTextIn.runKwargs true false)).stdout = some "a" := by
  refine ⟨by decide, by decide, by decide⟩

/-- C9 (amended): whenever `captured_output` yields raw bytes — which
is the case exactly when the invocation carries no input payload, an
empty one, or a binary one — text coercion returns the same value as
decoding those bytes as UTF-8; with a nonempty textual payload the
captured output is already text and text coercion raises `TypeError`. -/
theorem strCoercionDecodesCapturedBytes (os : OS) (e : Exec) :
    (∀ b s, (e.stdout os).1 = .ok (.bytes b) → utf8Decode b = some s →
      (e.toStr os).1 = .ok s) ∧
    (∀ s, (e.stdout os).1 = .ok (.text s) → (e.toStr os).1 = .error .typeError) := by
  constructor
  · intro b s hb hd
    unfold Exec.toStr
    rcases hst : e.stdout os with ⟨res, e1, ls⟩
    rw [hst] at hb
    simp at hb
    rw [hb]
    simp [hd]
  · intro s hs
    unfold Exec.toStr
    rcases hst : e.stdout os with ⟨res, e1, ls⟩
    rw [hst] at hs
    simp at hs
    rw [hs]

/-- Witness for the amended C9 on a byte-producing child. -/
theorem strCoercionDecodesCapturedBytes_witness :
    (eFresh.toStr osByteA).1 = .ok "a" :=
  (strCoercionDecodesCapturedBytes osByteA eFresh).1 [97] "a" (by decide) (by decide)

/-- C2 counterexample: the argv of the cipher invocations is a fixed
token list, so a password that happens to coincide with one of those
tokens — here the literal `"enc"` — does occur in the constructed
argument list. -/
theorem passwordInArgvCollision :
    "enc" ∈ (OpenSSL.encInvocation "attack at dawn" "enc" 3).argv ∧
    "enc" ∈ (OpenSSL.decInvocation "Q0lQSEVS" "enc" 3).argv := by
  refine ⟨by decide, by decide⟩

/-- C2 (amended): the constructed argument list is independent of the
password — the password reaches the child only through the `fd:<N>`
pipe reference — and therefore the literal password string occurs in
the argument list only if it coincides with one of the fixed cipher
tokens or with the `fd:<N>` token itself. -/
theorem passwordNeverInArgv (pt ct pw : String) (r : Nat)
    (h1 : pw ∉ (["/usr/bin/openssl", "enc", "-d", "-A", "-chacha", "-base64",
      "-pass"] : List String))
    (h2 : pw ≠ "fd:" ++ toString r) :
    pw ∉ (OpenSSL.encInvocation pt pw r).argv ∧
    pw ∉ (OpenSSL.decInvocation ct pw r).argv ∧
    (∀ pw2, (OpenSSL.encInvocation pt pw2 r).argv = (OpenSSL.encInvocation pt pw r).argv ∧
      (OpenSSL.decInvocation ct pw2 r).argv = (OpenSSL.decInvocation ct pw r).argv) := by
  simp at h1
  refine ⟨?_, ?_, fun pw2 => ⟨rfl, rfl⟩⟩ <;>
    · show pw ∉ _
      simp [OpenSSL.encInvocation, OpenSSL.decInvocation, OpenSSL.encArgv,
        OpenSSL.decArgv]
      tauto

/-- Witness for the amended C2 with an ordinary password. -/
theorem passwordNeverInArgv_witness :
    "hunter2" ∉ (OpenSSL.encInvocation "attack at dawn" "hunter2" 3).argv ∧
    "hunter2" ∉ (OpenSSL.decInvocation "Q0lQSEVS" "hunter2" 3).argv :=
  ⟨(passwordNeverInArgv "attack at dawn" "Q0lQSEVS" "hunter2" 3
      (by decide) (by decide)).1,
   (passwordNeverInArgv "attack at dawn" "Q0lQSEVS" "hunter2" 3
      (by decide) (by decide)).2.1⟩

/-- C1: round-trip of the cipher adapter.  The external cipher tool is
not part of the repository; its contract (§6 of the spec) enters as the
hypotheses `henc`/`hdec`: the encryption run exits 0 producing the
single-line text `C`, and the decryption run on the trimmed ciphertext
with the same password exits 0 reproducing exactly `P`.  Under that
contract, `encrypt` returns the trimmed ciphertext and
`decrypt (encrypt P K) K` returns `P` up to the trailing-whitespace
trimming both operations apply to their output. -/
theorem encryptDecryptRoundtrip (os osd : OS) (P K C : String) (r rd : Nat)
    (se sed : Out)
    (hP : P ≠ "")
    (henc : Exec.runCaptured os
      ((OpenSSL.encInvocation P K r).runKwargs true false) = .ok (0, .text C, se))
    (hC : pyRstrip C ≠ "")
    (hdec : Exec.runCaptured osd
      ((OpenSSL.decInvocation (pyRstrip C) K rd).runKwargs true false) =
        .ok (0, .text P, sed)) :
    OpenSSL.symmetric_encrypt os r P K = .ok (.text (pyRstrip C)) ∧
    OpenSSL.symmetric_decrypt osd rd (pyRstrip C) K = .ok (.text (pyRstrip P)) ∧
    (pyRstrip P = P →
      OpenSSL.symmetric_decrypt osd rd (pyRstrip C) K = .ok (.text P)) := by
  have hpe : (OpenSSL.encInvocation P K r).pending = true := rfl
  have hpd : (OpenSSL.decInvocation (pyRstrip C) K rd).pending = true := rfl
  have he : OpenSSL.symmetric_encrypt os r P K = .ok (.text (pyRstrip C)) := by
    unfold OpenSSL.symmetric_encrypt Exec.stdout
    simp [hpe, henc, Out.rstrip, Except.map]
  have hd : OpenSSL.symmetric_decrypt osd rd (pyRstrip C) K = .ok (.text (pyRstrip P)) := by
    unfold OpenSSL.symmetric_decrypt Exec.stdout
    simp [hpd, hdec, Out.rstrip, Except.map]
  exact ⟨he, hd, fun hfix => by rw [hd, hfix]⟩

/-- Witness for C1 at a concrete environment satisfying the cipher
contract: encryption emits the bytes of `"ct"`, decryption of `"ct"`
emits the bytes of `"hi"`. -/
theorem encryptDecryptRoundtrip_witness :
    OpenSSL.symmetric_encrypt (fun _ => ⟨0, [99, 116], []⟩) 3 "hi" "k" =
      .ok (.text (pyRstrip "ct")) ∧
    OpenSSL.symmetric_decrypt (fun _ => ⟨0, [104, 105], []⟩) 4 (pyRstrip "ct") "k" =
      .ok (.text (pyRstrip "hi")) ∧
    (pyRstrip "hi" = "hi" →
      OpenSSL.symmetric_decrypt (fun _ => ⟨0, [104, 105], []⟩) 4 (pyRstrip "ct") "k" =
        .ok (.text "hi")) :=
  encryptDecryptRoundtrip (fun _ => ⟨0, [99, 116], []⟩) (fun _ => ⟨0, [104, 105], []⟩)
    "hi" "k" "ct" 3 4 (.text "") (.text "")
    (by decide) (by decide) (by decide) (by decide)

end Khef
